import Mathlib

/-!
Verification of the TURN core of this repository: the STUN/TURN message
codec (`turn_node/src/payload/codec.rs`), the ERROR-CODE attribute decoder
(`turn_node/src/payload/error.rs`), the attribute model
(`lib/stun/src/attribute.rs`), and the Refresh / ChannelBind request
handlers (`turn_node/src/remux/refresh.rs`, `turn/src/proto/channel_bind.rs`).

Bytes are modelled as `List Nat` (each element a byte value).  Fallible
Rust functions returning `anyhow::Result` are modelled as `Except String`;
Rust panics (failed `assert!`, out-of-bounds slicing) are modelled as
`Except.error` values whose message starts with "panic".

The repository's `util` module, `Kind` enum, `Addr` type and the MD5 /
HMAC-SHA1 / CRC32 primitives are not present in the source tree; they are
modelled from the spec (each such definition is marked `Modelled from the
spec:`).  Cryptographic digests are abstracted as unspecified deterministic
functions of their input bytes with the documented output length — none of
the verified properties depends on the internals of MD5/SHA1/CRC32, only on
determinism and output length.
-/

namespace Mysticeti

set_option maxRecDepth 65536

deriving instance DecidableEq for Except

/-- Byte access `buffer[i]` on a byte list (reads as 0 past the end; every
theorem below only exercises in-bounds reads). -/
def byteAt (l : List Nat) (i : Nat) : Nat :=
  (l.drop i).headD 0

/-- Modelled from the spec: `as_u16` big-endian decode of the first two
bytes of a slice (util module, §4.A of the spec). -/
def asU16 (l : List Nat) : Nat :=
  byteAt l 0 * 256 + byteAt l 1

/-- Modelled from the spec: `as_u32` big-endian decode of the first four
bytes of a slice. -/
def asU32 (l : List Nat) : Nat :=
  ((byteAt l 0 * 256 + byteAt l 1) * 256 + byteAt l 2) * 256 + byteAt l 3

/-- Big-endian two-byte encoding of a `u16` value (`put_u16`). -/
def be16 (n : Nat) : List Nat :=
  [n / 256 % 256, n % 256]

/-- Big-endian four-byte encoding of a `u32` value (`put_u32`). -/
def be32 (n : Nat) : List Nat :=
  [n / 16777216 % 256, n / 65536 % 256, n / 256 % 256, n % 256]

/-- Modelled from the spec: `pad_size(n) = (4 - n mod 4) mod 4`
(attributes are 4-byte aligned on the wire, §4.A). -/
def padSize (n : Nat) : Nat :=
  (4 - n % 4) % 4

/-- XOR two byte lists pointwise; bytes of the first list beyond the end of
the mask are kept unchanged (mask byte 0). -/
def xorBytes : List Nat → List Nat → List Nat
  | [], _ => []
  | b :: bs, [] => (b ^^^ 0) :: xorBytes bs []
  | b :: bs, m :: ms => (b ^^^ m) :: xorBytes bs ms

/-- Modelled from the spec: MD5 digest, abstracted as an unspecified
deterministic 16-byte function of the input. -/
def md5 (m : List Nat) : List Nat :=
  (List.range 16).map (fun i => m.foldl (fun a b => (a * 31 + b + 1) % 251) i)

/-- Modelled from the spec: `long_key(user, realm, password) =
MD5(user ":" realm ":" password)` (long-term credential, §4.A). -/
def long_key (u r p : List Nat) : List Nat :=
  md5 (u ++ [58] ++ r ++ [58] ++ p)

/-- Modelled from the spec: `hmac_sha1(key, message) → 20 bytes`,
abstracted as an unspecified deterministic 20-byte function.  The source
feeds a list of slices; this model takes their concatenation. -/
def hmacSha1 (key msg : List Nat) : List Nat :=
  (List.range 20).map (fun i => (key ++ msg).foldl (fun a b => (a * 33 + b + 7) % 256) i)

/-- Modelled from the spec: CRC32 checksum, abstracted as an unspecified
deterministic function with a value below `2^32`. -/
def crc32 (m : List Nat) : Nat :=
  m.foldl (fun a b => (a * 131 + b + 3) % 4294967296) 5381 % 4294967296

/-- Modelled from the spec: `fingerprint(buf) = CRC32(buf) XOR 0x5354554e`
(u32 arithmetic, §4.A). -/
def fingerprint (m : List Nat) : Nat :=
  (crc32 m ^^^ 0x5354554e) % 4294967296

theorem hmacSha1_length (key msg : List Nat) : (hmacSha1 key msg).length = 20 := by
  simp [hmacSha1]

theorem fingerprint_lt (m : List Nat) : fingerprint m < 4294967296 :=
  Nat.mod_lt _ (by norm_num)

theorem byteAt_cons_zero (a : Nat) (l : List Nat) : byteAt (a :: l) 0 = a := rfl

theorem byteAt_cons_succ (a : Nat) (l : List Nat) (i : Nat) :
    byteAt (a :: l) (i + 1) = byteAt l i := rfl

theorem byteAt_drop (l : List Nat) (n k : Nat) :
    byteAt (l.drop n) k = byteAt l (n + k) := by
  simp [byteAt, List.drop_drop, Nat.add_comm]

/-- UTF-8 validity of a byte sequence, as enforced by Rust's
`std::str::from_utf8` (ASCII, 2/3/4-byte sequences, surrogate and
overlong-form exclusions). -/
def isUtf8 : List Nat → Bool
  | [] => true
  | b :: r =>
    if b ≤ 0x7F then isUtf8 r
    else if 0xC2 ≤ b && b ≤ 0xDF then
      match r with
      | c :: r2 => (0x80 ≤ c && c ≤ 0xBF) && isUtf8 r2
      | [] => false
    else if b = 0xE0 then
      match r with
      | c :: d :: r2 => (0xA0 ≤ c && c ≤ 0xBF) && (0x80 ≤ d && d ≤ 0xBF) && isUtf8 r2
      | _ => false
    else if (0xE1 ≤ b && b ≤ 0xEC) || b = 0xEE || b = 0xEF then
      match r with
      | c :: d :: r2 => (0x80 ≤ c && c ≤ 0xBF) && (0x80 ≤ d && d ≤ 0xBF) && isUtf8 r2
      | _ => false
    else if b = 0xED then
      match r with
      | c :: d :: r2 => (0x80 ≤ c && c ≤ 0x9F) && (0x80 ≤ d && d ≤ 0xBF) && isUtf8 r2
      | _ => false
    else if b = 0xF0 then
      match r with
      | c :: d :: e :: r2 =>
        (0x90 ≤ c && c ≤ 0xBF) && (0x80 ≤ d && d ≤ 0xBF) && (0x80 ≤ e && e ≤ 0xBF) && isUtf8 r2
      | _ => false
    else if 0xF1 ≤ b && b ≤ 0xF3 then
      match r with
      | c :: d :: e :: r2 =>
        (0x80 ≤ c && c ≤ 0xBF) && (0x80 ≤ d && d ≤ 0xBF) && (0x80 ≤ e && e ≤ 0xBF) && isUtf8 r2
      | _ => false
    else if b = 0xF4 then
      match r with
      | c :: d :: e :: r2 =>
        (0x80 ≤ c && c ≤ 0x8F) && (0x80 ≤ d && d ≤ 0xBF) && (0x80 ≤ e && e ≤ 0xBF) && isUtf8 r2
      | _ => false
    else false

/-- Address family (spec §3: `family ∈ {IPv4, IPv6}`). -/
inductive Family
  | v4
  | v6
deriving DecidableEq, Repr

/-- Modelled from the spec: transport address
`(family, port: u16, ip: bytes)` (§3); the `Addr` type of the stun crate is
not in the source tree. -/
structure Addr where
  family : Family
  port : Nat
  ip : List Nat
deriving DecidableEq, Repr

/-- The magic cookie bytes `0x2112A442`. -/
def cookieBytes : List Nat := [0x21, 0x12, 0xA4, 0x42]

/-- Modelled from the spec: on-wire encoding of an address attribute value:
`0x00 ∥ family ∥ port(2) ∥ ip`; for the xor-mapped form the port is XORed
with the high 16 bits of the magic cookie, IPv4 bytes with the full cookie
and IPv6 bytes with cookie ∥ transaction-id (§3). -/
def Addr.asBytes (a : Addr) (token : List Nat) (xor : Bool) : List Nat :=
  let famByte : Nat := match a.family with | .v4 => 1 | .v6 => 2
  let port := if xor then a.port ^^^ 0x2112 else a.port
  let ip := if xor then xorBytes a.ip (cookieBytes ++ token) else a.ip
  [0, famByte] ++ be16 (port % 65536) ++ ip

/-- Modelled from the spec: decode an address attribute value, the inverse
of `Addr.asBytes`; fails on a malformed family byte or truncated value. -/
def Addr.tryFrom (v token : List Nat) (xor : Bool) : Except String Addr :=
  match v with
  | 0 :: famByte :: rest =>
    let port0 := asU16 rest
    let port := if xor then port0 ^^^ 0x2112 else port0
    let ipRaw := rest.drop 2
    let ip := if xor then xorBytes ipRaw (cookieBytes ++ token) else ipRaw
    match famByte with
    | 1 => if ipRaw.length = 4 then .ok ⟨.v4, port, ip⟩ else .error "malformed address"
    | 2 => if ipRaw.length = 16 then .ok ⟨.v6, port, ip⟩ else .error "malformed address"
    | _ => .error "malformed address"
  | _ => .error "malformed address"

/-- Error kinds with their STUN codes (`turn_node/src/payload/error.rs`,
`ErrKind`). -/
inductive ErrKind
  | TryAlternate
  | BadRequest
  | Unauthorized
  | Forbidden
  | RequestTimedout
  | UnknownAttribute
  | AllocationMismatch
  | StaleNonce
  | AddressFamilyNotSupported
  | WrongCredentials
  | UnsupportedTransportAddress
  | AllocationQuotaReached
  | ServerError
  | InsufficientCapacity
deriving DecidableEq, Repr

/-- The `repr(u16)` numeric value of each error kind. -/
def ErrKind.code : ErrKind → Nat
  | .TryAlternate => 0x0300
  | .BadRequest => 0x0400
  | .Unauthorized => 0x0401
  | .Forbidden => 0x0403
  | .RequestTimedout => 0x0408
  | .UnknownAttribute => 0x0420
  | .AllocationMismatch => 0x0437
  | .StaleNonce => 0x0438
  | .AddressFamilyNotSupported => 0x0440
  | .WrongCredentials => 0x0441
  | .UnsupportedTransportAddress => 0x0442
  | .AllocationQuotaReached => 0x0486
  | .ServerError => 0x0500
  | .InsufficientCapacity => 0x0508

/-- A decoded ERROR-CODE attribute: numeric code plus reason bytes
(`Error` struct in `error.rs`; equality compares only the code, mirrored by
`errorEq` below). -/
structure ErrorRec where
  code : Nat
  message : List Nat
deriving DecidableEq, Repr

/-- `Error::eq` from `error.rs`: two errors are equal when their codes are
equal (the message is ignored). -/
def errorEq (a b : ErrorRec) : Bool := a.code == b.code

/-- `Error::from(ErrKind)`: code plus the canonical reason phrase (the
phrase bytes are irrelevant to every property below and are modelled as the
empty list). -/
def errorFrom (e : ErrKind) : ErrorRec := ⟨e.code, []⟩

/-- `Error::as_bytes`: reserved `0x0000`, the code, then the reason
bytes. -/
def errorAsBytes (e : ErrorRec) : List Nat :=
  be16 0 ++ be16 (e.code % 65536) ++ e.message

/-- `Error::try_from` from `turn_node/src/payload/error.rs`, faithfully
including its two bugs: `ensure!(packet.len() < 6, ...)` (inverted bound)
and `ensure!(as_u16(&packet[..2]) != 0x0000, ...)` (rejects the reserved
zero word the encoder writes).  Rust panics from out-of-bounds slicing
(`&packet[..2]`, `&packet[2..4]`, `&packet[6..]`) are modelled as errors
whose message starts with "panic". -/
def errorTryFrom (packet : List Nat) : Except String ErrorRec :=
  if ¬ packet.length < 6 then .error "buffer len < 6"
  else if packet.length < 2 then .error "panic: slice out of range"
  else if asU16 packet = 0 then .error "missing reserved"
  else if packet.length < 4 then .error "panic: slice out of range"
  else if packet.length < 6 then .error "panic: slice out of range"
  else
    if isUtf8 (packet.drop 6) then .ok ⟨asU16 (packet.drop 2), packet.drop 6⟩
    else .error "invalid utf-8"

/-- Attribute types (`lib/stun/src/attribute.rs`, `AttrKind`). -/
inductive AttrKind
  | UserName
  | Data
  | Realm
  | Nonce
  | XorPeerAddress
  | XorRelayedAddress
  | XorMappedAddress
  | MappedAddress
  | ResponseOrigin
  | Software
  | MessageIntegrity
  | ErrorAttrKind
  | Lifetime
  | ReqeestedTransport
  | Fingerprint
  | ChannelNumber
deriving DecidableEq, Repr

/-- The `repr(u16)` code of each attribute type. -/
def AttrKind.code : AttrKind → Nat
  | .UserName => 0x0006
  | .Data => 0x0013
  | .Realm => 0x0014
  | .Nonce => 0x0015
  | .XorPeerAddress => 0x0012
  | .XorRelayedAddress => 0x0016
  | .XorMappedAddress => 0x0020
  | .MappedAddress => 0x0001
  | .ResponseOrigin => 0x802B
  | .Software => 0x8022
  | .MessageIntegrity => 0x0008
  | .ErrorAttrKind => 0x0009
  | .Lifetime => 0x000D
  | .ReqeestedTransport => 0x0019
  | .Fingerprint => 0x8028
  | .ChannelNumber => 0x000C

/-- `AttrKind::try_from` (`num_enum::TryFromPrimitive`): recover an
attribute type from its code. -/
def AttrKind.tryFrom (n : Nat) : Option AttrKind :=
  if n = 0x0006 then some .UserName
  else if n = 0x0013 then some .Data
  else if n = 0x0014 then some .Realm
  else if n = 0x0015 then some .Nonce
  else if n = 0x0012 then some .XorPeerAddress
  else if n = 0x0016 then some .XorRelayedAddress
  else if n = 0x0020 then some .XorMappedAddress
  else if n = 0x0001 then some .MappedAddress
  else if n = 0x802B then some .ResponseOrigin
  else if n = 0x8022 then some .Software
  else if n = 0x0008 then some .MessageIntegrity
  else if n = 0x0009 then some .ErrorAttrKind
  else if n = 0x000D then some .Lifetime
  else if n = 0x0019 then some .ReqeestedTransport
  else if n = 0x8028 then some .Fingerprint
  else if n = 0x000C then some .ChannelNumber
  else none

/-- Decoded attribute (`Property` in `attribute.rs`).  Rust `&str` values
are modelled as their UTF-8 byte lists. -/
inductive Property
  | Data (v : List Nat)
  | UserName (s : List Nat)
  | Realm (s : List Nat)
  | Nonce (s : List Nat)
  | XorPeerAddress (a : Addr)
  | XorRelayedAddress (a : Addr)
  | XorMappedAddress (a : Addr)
  | MappedAddress (a : Addr)
  | ResponseOrigin (a : Addr)
  | Software (s : List Nat)
  | MessageIntegrity (v : List Nat)
  | ErrorCode (e : ErrorRec)
  | Lifetime (v : Nat)
  | ReqeestedTransport
  | Fingerprint (v : Nat)
  | ChannelNumber (v : Nat)
deriving DecidableEq, Repr

/-- `Property::kind` from `attribute.rs`. -/
def Property.kind : Property → AttrKind
  | .UserName _ => .UserName
  | .Realm _ => .Realm
  | .Nonce _ => .Nonce
  | .XorPeerAddress _ => .XorPeerAddress
  | .XorMappedAddress _ => .XorMappedAddress
  | .XorRelayedAddress _ => .XorRelayedAddress
  | .MappedAddress _ => .MappedAddress
  | .ResponseOrigin _ => .ResponseOrigin
  | .Software _ => .Software
  | .MessageIntegrity _ => .MessageIntegrity
  | .ErrorCode _ => .ErrorAttrKind
  | .Lifetime _ => .Lifetime
  | .ReqeestedTransport => .ReqeestedTransport
  | .Fingerprint _ => .Fingerprint
  | .ChannelNumber _ => .ChannelNumber
  | .Data _ => .Data

/-- `Property::into_bytes` from `attribute.rs`: append the attribute body
to a buffer (here: return the appended bytes).  MessageIntegrity and
Fingerprint bodies are not written here — the codec emits them. -/
def Property.intoBytes (p : Property) (t : List Nat) : List Nat :=
  match p with
  | .UserName u => u
  | .Realm r => r
  | .Nonce n => n
  | .XorPeerAddress a => a.asBytes t true
  | .XorRelayedAddress a => a.asBytes t true
  | .XorMappedAddress a => a.asBytes t true
  | .MappedAddress a => a.asBytes t false
  | .ResponseOrigin a => a.asBytes t false
  | .Software v => v
  | .ErrorCode e => errorAsBytes e
  | .ReqeestedTransport => [0x11]
  | .Data v => v
  | .ChannelNumber v => be16 (v % 65536)
  | .Lifetime v => be32 (v % 4294967296)
  | .MessageIntegrity _ => []
  | .Fingerprint _ => []

/-- `buf_as_str` from `attribute.rs`: `std::str::from_utf8`. -/
def bufAsStr (v : List Nat) : Except String (List Nat) :=
  if isUtf8 v then .ok v else .error "invalid utf-8"

/-- `AttrKind::from` from `attribute.rs`: decode an attribute value into a
`Property` given the transaction token. -/
def AttrKind.from (k : AttrKind) (token v : List Nat) : Except String Property :=
  match k with
  | .UserName => (bufAsStr v).map Property.UserName
  | .Realm => (bufAsStr v).map Property.Realm
  | .Nonce => (bufAsStr v).map Property.Nonce
  | .XorPeerAddress => (Addr.tryFrom v token true).map Property.XorPeerAddress
  | .XorRelayedAddress => (Addr.tryFrom v token true).map Property.XorRelayedAddress
  | .XorMappedAddress => (Addr.tryFrom v token true).map Property.XorMappedAddress
  | .MappedAddress => (Addr.tryFrom v token false).map Property.MappedAddress
  | .ResponseOrigin => (Addr.tryFrom v token false).map Property.ResponseOrigin
  | .Fingerprint => .ok (Property.Fingerprint (asU32 v))
  | .ChannelNumber => .ok (Property.ChannelNumber (asU16 v))
  | .Software => (bufAsStr v).map Property.Software
  | .MessageIntegrity => .ok (Property.MessageIntegrity v)
  | .ErrorAttrKind => (errorTryFrom v).map Property.ErrorCode
  | .Lifetime => .ok (Property.Lifetime (asU32 v))
  | .ReqeestedTransport => .ok Property.ReqeestedTransport
  | .Data => .ok (Property.Data v)

/-- Modelled from the spec: message kinds
`{Binding/Allocate/Refresh/CreatePermission/ChannelBind/Send/Data} ×
{Request,Response,Error,Indication}` plus `Unknown` (§3); the `Kind` enum
of `turn_node/src/payload` is not in the source tree. -/
inductive Kind
  | BindingRequest
  | BindingResponse
  | BindingError
  | BindingIndication
  | AllocateRequest
  | AllocateResponse
  | AllocateError
  | AllocateIndication
  | RefreshRequest
  | RefreshResponse
  | RefreshError
  | RefreshIndication
  | CreatePermissionRequest
  | CreatePermissionResponse
  | CreatePermissionError
  | CreatePermissionIndication
  | ChannelBindRequest
  | ChannelBindResponse
  | ChannelBindError
  | ChannelBindIndication
  | SendRequest
  | SendResponse
  | SendError
  | SendIndication
  | DataRequest
  | DataResponse
  | DataError
  | DataIndication
  | Unknown
deriving DecidableEq, Repr

/-- Modelled from the spec: the `u16` message-type code: method codes
Binding 0x001, Allocate 0x003, Refresh 0x004, Send 0x006, Data 0x007,
CreatePermission 0x008, ChannelBind 0x009 with class bits request `0b00`,
success `0b10`, error `0b11`, indication `0b01` at bit positions 8 and 4
(§6).  `Unknown` has no wire code; the encoder asserts it away. -/
def Kind.code : Kind → Nat
  | .BindingRequest => 0x0001
  | .BindingResponse => 0x0101
  | .BindingError => 0x0111
  | .BindingIndication => 0x0011
  | .AllocateRequest => 0x0003
  | .AllocateResponse => 0x0103
  | .AllocateError => 0x0113
  | .AllocateIndication => 0x0013
  | .RefreshRequest => 0x0004
  | .RefreshResponse => 0x0104
  | .RefreshError => 0x0114
  | .RefreshIndication => 0x0014
  | .CreatePermissionRequest => 0x0008
  | .CreatePermissionResponse => 0x0108
  | .CreatePermissionError => 0x0118
  | .CreatePermissionIndication => 0x0018
  | .ChannelBindRequest => 0x0009
  | .ChannelBindResponse => 0x0109
  | .ChannelBindError => 0x0119
  | .ChannelBindIndication => 0x0019
  | .SendRequest => 0x0006
  | .SendResponse => 0x0106
  | .SendError => 0x0116
  | .SendIndication => 0x0016
  | .DataRequest => 0x0007
  | .DataResponse => 0x0107
  | .DataError => 0x0117
  | .DataIndication => 0x0017
  | .Unknown => 0xFFFF

/-- The 28 recognized wire codes with their kinds. -/
def Kind.codeTable : List (Nat × Kind) :=
  [(0x0001, .BindingRequest), (0x0101, .BindingResponse), (0x0111, .BindingError),
   (0x0011, .BindingIndication), (0x0003, .AllocateRequest), (0x0103, .AllocateResponse),
   (0x0113, .AllocateError), (0x0013, .AllocateIndication), (0x0004, .RefreshRequest),
   (0x0104, .RefreshResponse), (0x0114, .RefreshError), (0x0014, .RefreshIndication),
   (0x0008, .CreatePermissionRequest), (0x0108, .CreatePermissionResponse),
   (0x0118, .CreatePermissionError), (0x0018, .CreatePermissionIndication),
   (0x0009, .ChannelBindRequest), (0x0109, .ChannelBindResponse),
   (0x0119, .ChannelBindError), (0x0019, .ChannelBindIndication),
   (0x0006, .SendRequest), (0x0106, .SendResponse), (0x0116, .SendError),
   (0x0016, .SendIndication), (0x0007, .DataRequest), (0x0107, .DataResponse),
   (0x0117, .DataError), (0x0017, .DataIndication)]

/-- Modelled from the spec: `Kind::try_from` on a `u16` message type;
unrecognized codes decode to none (the codec substitutes `Unknown`). -/
def Kind.tryFrom (n : Nat) : Option Kind :=
  (Kind.codeTable.find? (fun kc => kc.1 == n)).map (fun kc => kc.2)

/-- Decoded STUN message (`Message` in `turn_node/src/payload`): kind,
attribute list, the raw buffer, the 12-byte transaction token, and `block`,
the byte offset at which the MESSAGE-INTEGRITY attribute starts (a `u16` in
the source, hence stored modulo 2^16). -/
structure Message where
  kind : Kind
  attributes : List (AttrKind × Property)
  buffer : List Nat
  token : List Nat
  block : Nat
deriving DecidableEq, Repr

/-- `UNKNOWN_PAYLOAD` from `codec.rs`: the constant message returned for
unsupported message types. -/
def UNKNOWN_PAYLOAD : Message :=
  { kind := .Unknown, attributes := [], buffer := [], token := [], block := 0 }

/-- `Message::get`: first attribute of the given kind, if any (modelled
from its uses in `codec.rs` and the handlers; returns the decoded
`Property`). -/
def Message.get (m : Message) (k : AttrKind) : Option Property :=
  (m.attributes.find? (fun kp => kp.1 == k)).map (·.2)

/-- The attribute-walking loop of `decode_message` (`codec.rs` lines
52-106): reads attributes from `offset`, records `block` at the start of
each attribute until MESSAGE-INTEGRITY has been seen, skips unsupported
kinds and attributes that fail to decode, and stops when fewer than 4 bytes
remain (or a declared value overruns the buffer).  Returns the decoded
attributes and the final `block` value. -/
def decodeLoop (buffer token : List Nat) (offset : Nat) (findBlock : Bool) (block : Nat) :
    List (AttrKind × Property) × Nat :=
  if _h4 : buffer.length - offset < 4 then ([], block)
  else
    let key := byteAt buffer offset * 256 + byteAt buffer (offset + 1)
    let block1 := if findBlock then block else offset % 65536
    let findBlock1 := findBlock || (key == 0x0008)
    let size := byteAt buffer (offset + 2) * 256 + byteAt buffer (offset + 3)
    let offset1 := offset + 4
    if buffer.length - offset1 < size then ([], block1)
    else
      let value := (buffer.drop offset1).take size
      let offset2 := if 0 < size then offset1 + size + padSize size else offset1
      match AttrKind.tryFrom key with
      | none => decodeLoop buffer token offset2 findBlock1 block1
      | some k =>
        match k.from token value with
        | .error _ => decodeLoop buffer token offset2 findBlock1 block1
        | .ok p =>
          let rest := decodeLoop buffer token offset2 findBlock1 block1
          ((k, p) :: rest.1, rest.2)
termination_by buffer.length - offset
decreasing_by all_goals (split <;> omega)

/-- `decode_message` from `codec.rs`: header checks (length ≥ 20,
unsupported kinds short-circuit to `UNKNOWN_PAYLOAD`, magic cookie,
declared length), then the attribute walk. -/
def decode_message (buffer : List Nat) : Except String Message :=
  if buffer.length < 20 then .error "message len < 20"
  else
    let kind := (Kind.tryFrom (asU16 buffer)).getD Kind.Unknown
    if kind = Kind.Unknown then .ok UNKNOWN_PAYLOAD
    else
      let size := asU16 (buffer.drop 2)
      let cookie := asU32 (buffer.drop 4)
      if cookie ≠ 0x2112A442 then .error "missing cookie"
      else if buffer.length < size + 20 then .error "missing len"
      else
        let token := (buffer.drop 8).take 12
        let res := decodeLoop buffer token 20 false 0
        .ok { kind := kind, attributes := res.1, buffer := buffer,
              token := token, block := res.2 }

/-- One encoded attribute as written by the loop of `encode_message`:
2-byte type code, 2-byte (truncated) value length, the value produced by
`Property::into_bytes`, and zero padding to a 4-byte boundary. -/
def encodeAttr (token : List Nat) (kp : AttrKind × Property) : List Nat :=
  let v := kp.2.intoBytes token
  be16 kp.1.code ++ be16 (v.length % 65536) ++ v ++ List.replicate (padSize v.length) 0

/-- All attributes of a message, encoded in order. -/
def encodeAttrs (token : List Nat) (attrs : List (AttrKind × Property)) : List Nat :=
  (attrs.map (encodeAttr token)).flatten

/-- Write a big-endian `u16` at byte positions 2 and 3 of a buffer (the
length-field rewrites of `encode_message` / `encoder_integrity`). -/
def setLen2 (buf : List Nat) (n : Nat) : List Nat :=
  (buf.set 2 (n / 256 % 256)).set 3 (n % 256)

/-- Credential triple as passed around the codec (`Auth` =
`(&str, &str, &str)`); the three components are fed to `long_key`
unchanged. -/
def Auth := List Nat × List Nat × List Nat

/-- The long-term key of a credential triple, as both `encoder_integrity`
and `assert_integrity` derive it: `util::long_key(auth.0, auth.1, auth.2)`. -/
def authKey (a : Auth) : List Nat := long_key a.1 a.2.1 a.2.2

/-- `encoder_integrity` from `codec.rs`: rewrite the length field to
include the 24-byte MESSAGE-INTEGRITY attribute, HMAC the whole buffer,
append MESSAGE-INTEGRITY, rewrite the length to also include the 8-byte
FINGERPRINT attribute, then append FINGERPRINT with the CRC of the buffer
as it stands after the fingerprint attribute header was written.  The
`assert!(buffer.len() >= 20)` is modelled as a panic error. -/
def encoder_integrity (buffer : List Nat) (auth : Auth) : Except String (List Nat) :=
  if buffer.length < 20 then .error "panic: assertion failed"
  else
    let size1 := (buffer.length + 4) % 65536
    let buf1 := setLen2 buffer size1
    let hmacOut := hmacSha1 (authKey auth) buf1
    let buf2 := buf1 ++ be16 0x0008 ++ be16 20 ++ hmacOut
    let size2 := (size1 + 8) % 65536
    let buf3 := setLen2 buf2 size2
    let buf4 := buf3 ++ be16 0x8028 ++ be16 4
    .ok (buf4 ++ be32 (fingerprint buf4))

/-- `encode_message` from `codec.rs`: header with length placeholder,
attributes with 4-byte headers and padding, length rewrite, then the
optional integrity/fingerprint block.  The `assert_ne!(kind, Unknown)` is
modelled as a panic error. -/
def encode_message (m : Message) (auth : Option Auth) : Except String (List Nat) :=
  if m.kind = Kind.Unknown then .error "panic: assertion failed"
  else
    let body := encodeAttrs m.token m.attributes
    let buf := be16 m.kind.code ++ be16 0 ++ be32 0x2112A442 ++ m.token ++ body
    let buf1 := setLen2 buf ((buf.length - 20) % 65536)
    match auth with
    | none => .ok buf1
    | some a => encoder_integrity buf1 a

/-- `assert_integrity` from `codec.rs`: recompute the HMAC over
`buffer[0..2] ∥ be16(block + 4) ∥ buffer[4..block]` with the long-term key
and compare it with the stored MESSAGE-INTEGRITY value.  The two leading
`assert!`s are modelled as panic errors; `block + 4` is `u16` arithmetic. -/
def assert_integrity (payload : Message) (auth : Auth) : Except String Bool :=
  if payload.buffer.isEmpty then .error "panic: assertion failed"
  else if payload.block ≤ 20 then .error "panic: assertion failed"
  else
    match payload.get AttrKind.MessageIntegrity with
    | none => .error "not found MessageIntegrity"
    | some integrity =>
      let sizeBuf := be16 ((payload.block + 4) % 65536)
      let body := payload.buffer.take 2 ++ sizeBuf
        ++ (payload.buffer.drop 4).take (payload.block - 4)
      let hmacOut := hmacSha1 (authKey auth) body
      .ok (match integrity with
        | .MessageIntegrity x => hmacOut == x
        | _ => false)

/-- `Message::verify` of the `turn_node` payload (not in the source tree).
Modelled from the spec: the verify contract (§4.C) is exactly
`assert_integrity`, which this wraps. -/
def Message.verify (m : Message) (auth : Auth) : Except String Bool :=
  assert_integrity m auth

/-- Outcome of the Refresh handler: an error response (kind `RefreshError`
with the given ERROR-CODE) or a success response (kind `RefreshResponse`
carrying the given LIFETIME and signed with the caller's credentials). -/
inductive RefreshOutcome
  | reject (e : ErrKind)
  | resolve (lifetime : Nat)
deriving DecidableEq, Repr

/-- `process` from `turn_node/src/remux/refresh.rs`: read USERNAME (else
401), read LIFETIME (default 600), look up the long-term key (else 401),
verify MESSAGE-INTEGRITY (else 401; a panic inside `verify` propagates via
`?`), then call `state.refresh(addr, l)` and answer with lifetime `l`.
`getAuth` stands for the async `ctx.get_auth` lookup; `realm` is
`ctx.conf.realm`. -/
def refresh_process (m : Message) (realm : List Nat)
    (getAuth : List Nat → Option (List Nat)) : Except String RefreshOutcome :=
  match m.get AttrKind.UserName with
  | some (Property.UserName u) =>
    let l := match m.get AttrKind.Lifetime with
      | some (Property.Lifetime l) => l
      | _ => 600
    match getAuth u with
    | none => .ok (.reject .Unauthorized)
    | some key =>
      match m.verify (u, key, realm) with
      | .error e => .error e
      | .ok false => .ok (.reject .Unauthorized)
      | .ok true => .ok (.resolve l)
  | _ => .ok (.reject .Unauthorized)

/-- A STUN message as seen through the stun crate's `MessageReader`
(`turn/src/proto/channel_bind.rs`).  The reader itself is not in the source
tree; modelled from the spec (§3, §4.C): raw attribute values in wire
order, the transaction token, the raw buffer and the integrity offset. -/
structure CBMessage where
  attrs : List (AttrKind × List Nat)
  token : List Nat
  buffer : List Nat
  block : Nat
deriving DecidableEq, Repr

/-- Raw value of the first attribute of a kind (`MessageReader::get`
lookup step). -/
def CBMessage.getRaw (m : CBMessage) (k : AttrKind) : Option (List Nat) :=
  (m.attrs.find? (fun kv => kv.1 == k)).map (·.2)

/-- `m.get::<UserName>()`: present or not; if present, decoded through the
attribute codec of `lib/stun/src/attribute.rs`. -/
def CBMessage.getUserName (m : CBMessage) : Option (Except String (List Nat)) :=
  (m.getRaw AttrKind.UserName).map fun v =>
    match AttrKind.UserName.from m.token v with
    | .ok (Property.UserName s) => .ok s
    | .ok _ => .error "unexpected property"
    | .error e => .error e

/-- `m.get::<ChannelNumber>()`. -/
def CBMessage.getChannelNumber (m : CBMessage) : Option (Except String Nat) :=
  (m.getRaw AttrKind.ChannelNumber).map fun v =>
    match AttrKind.ChannelNumber.from m.token v with
    | .ok (Property.ChannelNumber c) => .ok c
    | .ok _ => .error "unexpected property"
    | .error e => .error e

/-- `m.get::<XorPeerAddress>()`. -/
def CBMessage.getXorPeerAddress (m : CBMessage) : Option (Except String Addr) :=
  (m.getRaw AttrKind.XorPeerAddress).map fun v =>
    match AttrKind.XorPeerAddress.from m.token v with
    | .ok (Property.XorPeerAddress a) => .ok a
    | .ok _ => .error "unexpected property"
    | .error e => .error e

/-- `MessageReader::integrity` (not in the source tree).  Modelled from the
spec (§4.C verify contract): recompute the HMAC exactly as
`assert_integrity` does and fail unless it matches the stored
MESSAGE-INTEGRITY value. -/
def CBMessage.integrity (m : CBMessage) (auth : Auth) : Except String Unit :=
  match m.getRaw AttrKind.MessageIntegrity with
  | none => .error "not found MessageIntegrity"
  | some stored =>
    let sizeBuf := be16 ((m.block + 4) % 65536)
    let body := m.buffer.take 2 ++ sizeBuf ++ (m.buffer.drop 4).take (m.block - 4)
    if hmacSha1 (authKey auth) body = stored then .ok () else .error "integrity failed"

/-- State mutations a handler can request from the relay state
(`ctx.state`).  The ChannelBind handler only ever issues `insertChannel`
with the peer's port; `insertPermission` exists in the state interface
(spec §4.E) but is never reachable from this handler. -/
inductive StateCall
  | insertChannel (peerPort channel : Nat)
  | insertPermission (ip : List Nat)
deriving DecidableEq, Repr

/-- Outcome of the ChannelBind handler: `reject` is built by the `reject`
helper (`channel_bind.rs` lines 31-43), which derives its response from
`Kind::CreatePermissionError` and appends the ERROR-CODE and REALM;
`resolve` is the `ChannelBindResponse` success. -/
inductive CBOutcome
  | reject (kind : Kind) (e : ErrKind)
  | resolve
deriving DecidableEq, Repr

/-- `reject` from `channel_bind.rs`: note the response kind is
`Kind::CreatePermissionError`. -/
def cbReject (e : ErrKind) : CBOutcome := .reject Kind.CreatePermissionError e

/-- `process` from `turn/src/proto/channel_bind.rs`: USERNAME (else 401),
CHANNEL-NUMBER (else 400), XOR-PEER-ADDRESS port (else 400), channel range
`0x4000..=0x4FFF` (else 400), password lookup (else 401), integrity check
(else 401), then `state.insert_channel(addr, peer_port, channel)` (on
`false`: 437).  Decode failures of present attributes propagate via `?`
(the datagram is dropped).  Returns the outcome together with the list of
state mutations performed; `getPassword` stands for
`ctx.state.get_password`, `insertChannel` for `ctx.state.insert_channel`. -/
def cb_process (m : CBMessage) (realm : List Nat)
    (getPassword : List Nat → Option (List Nat))
    (insertChannel : Nat → Nat → Bool) :
    Except String (CBOutcome × List StateCall) :=
  match m.getUserName with
  | none => .ok (cbReject .Unauthorized, [])
  | some (.error e) => .error e
  | some (.ok u) =>
    match m.getChannelNumber with
    | none => .ok (cbReject .BadRequest, [])
    | some (.error e) => .error e
    | some (.ok c) =>
      match m.getXorPeerAddress with
      | none => .ok (cbReject .BadRequest, [])
      | some (.error e) => .error e
      | some (.ok a) =>
        let p := a.port
        if ¬ (0x4000 ≤ c ∧ c ≤ 0x4FFF) then .ok (cbReject .BadRequest, [])
        else
          match getPassword u with
          | none => .ok (cbReject .Unauthorized, [])
          | some key =>
            match m.integrity (u, key, realm) with
            | .error _ => .ok (cbReject .Unauthorized, [])
            | .ok _ =>
              if ¬ insertChannel p c then
                .ok (cbReject .AllocationMismatch, [.insertChannel p c])
              else
                .ok (.resolve, [.insertChannel p c])

/-! ### Well-formedness of messages fed to the encoder -/

/-- A structurally well-formed address: port fits a `u16` and the ip length
matches the family. -/
def wfAddr (a : Addr) : Bool :=
  decide (a.port < 65536) &&
    (match a.family with
     | .v4 => a.ip.length == 4
     | .v6 => a.ip.length == 16)

/-- A property the encoder can serialize so that the decoder recovers it
verbatim: strings are valid UTF-8, numeric fields fit their wire width,
addresses are well-formed.  MESSAGE-INTEGRITY, FINGERPRINT and ERROR-CODE
are excluded: the first two have empty `into_bytes` bodies (the codec emits
them itself) and ERROR-CODE can never be decoded back (see `errorTryFrom`). -/
def wfProperty : Property → Bool
  | .UserName s => isUtf8 s
  | .Realm s => isUtf8 s
  | .Nonce s => isUtf8 s
  | .Software s => isUtf8 s
  | .XorPeerAddress a => wfAddr a
  | .XorRelayedAddress a => wfAddr a
  | .XorMappedAddress a => wfAddr a
  | .MappedAddress a => wfAddr a
  | .ResponseOrigin a => wfAddr a
  | .Lifetime v => decide (v < 4294967296)
  | .ChannelNumber v => decide (v < 65536)
  | .Data _ => true
  | .ReqeestedTransport => true
  | .MessageIntegrity _ => false
  | .Fingerprint _ => false
  | .ErrorCode _ => false

/-- A valid message for the encoder: recognized kind, 12-byte transaction
token, a nonempty attribute list of consistently-tagged well-formed
properties, and a total attribute size that keeps the final length field
(body + 32 bytes of integrity and fingerprint) within a `u16`. -/
def validMessage (m : Message) : Prop :=
  m.kind ≠ Kind.Unknown ∧
  m.token.length = 12 ∧
  m.attributes ≠ [] ∧
  (∀ kp ∈ m.attributes, kp.1 = kp.2.kind ∧ wfProperty kp.2 = true) ∧
  (encodeAttrs m.token m.attributes).length + 32 < 65536

instance (m : Message) : Decidable (validMessage m) := by
  unfold validMessage
  infer_instance

/-! ### Arithmetic and byte-list helper lemmas -/

theorem asU16_be16_append (n : Nat) (r : List Nat) :
    asU16 (be16 n ++ r) = n % 65536 := by
  simp only [asU16, be16, List.cons_append, byteAt_cons_zero, byteAt_cons_succ]
  omega

theorem asU16_be16 (n : Nat) (h : n < 65536) : asU16 (be16 n) = n := by
  have := asU16_be16_append n []
  simpa [Nat.mod_eq_of_lt h] using this

theorem asU32_be32 (n : Nat) (h : n < 4294967296) : asU32 (be32 n) = n := by
  simp only [asU32, be32, byteAt_cons_zero, byteAt_cons_succ]
  omega

theorem be16_drop2 (n : Nat) (r : List Nat) : (be16 n ++ r).drop 2 = r := by
  simp [be16]

theorem xorBytes_length (l m : List Nat) : (xorBytes l m).length = l.length := by
  induction l generalizing m with
  | nil => simp [xorBytes]
  | cons b bs ih =>
    cases m with
    | nil => simpa [xorBytes] using ih []
    | cons c cs => simpa [xorBytes] using ih cs

theorem xorBytes_involutive (l m : List Nat) : xorBytes (xorBytes l m) m = l := by
  induction l generalizing m with
  | nil => simp [xorBytes]
  | cons b bs ih =>
    cases m with
    | nil => simpa [xorBytes] using ih []
    | cons c cs =>
      simp only [xorBytes, List.cons.injEq]
      exact ⟨by rw [Nat.xor_assoc, Nat.xor_self, Nat.xor_zero], ih cs⟩

theorem Addr.tryFrom_asBytes (a : Addr) (token : List Nat) (xor : Bool)
    (hwf : wfAddr a = true) :
    Addr.tryFrom (a.asBytes token xor) token xor = .ok a := by
  obtain ⟨fam, port, ip⟩ := a
  simp only [wfAddr, Bool.and_eq_true, decide_eq_true_eq] at hwf
  obtain ⟨hport, hip⟩ := hwf
  have hpx : port ^^^ 0x2112 < 65536 := by
    simpa using Nat.xor_lt_two_pow (n := 16) (by simpa using hport) (by norm_num)
  cases fam with
  | v4 =>
    simp only [beq_iff_eq] at hip
    cases xor with
    | false =>
      simp only [Addr.asBytes, Addr.tryFrom, List.cons_append, List.nil_append,
        Bool.false_eq_true, ite_false]
      rw [Nat.mod_eq_of_lt hport, asU16_be16_append, be16_drop2]
      simp [hip, Nat.mod_eq_of_lt hport]
    | true =>
      simp only [Addr.asBytes, Addr.tryFrom, List.cons_append, List.nil_append, ite_true]
      rw [Nat.mod_eq_of_lt hpx, asU16_be16_append, be16_drop2, Nat.mod_eq_of_lt hpx]
      rw [xorBytes_length, xorBytes_involutive]
      simp [hip, Nat.xor_assoc]
  | v6 =>
    simp only [beq_iff_eq] at hip
    cases xor with
    | false =>
      simp only [Addr.asBytes, Addr.tryFrom, List.cons_append, List.nil_append,
        Bool.false_eq_true, ite_false]
      rw [Nat.mod_eq_of_lt hport, asU16_be16_append, be16_drop2]
      simp [hip, Nat.mod_eq_of_lt hport]
    | true =>
      simp only [Addr.asBytes, Addr.tryFrom, List.cons_append, List.nil_append, ite_true]
      rw [Nat.mod_eq_of_lt hpx, asU16_be16_append, be16_drop2, Nat.mod_eq_of_lt hpx]
      rw [xorBytes_length, xorBytes_involutive]
      simp [hip, Nat.xor_assoc]

/-- Per-attribute round-trip: decoding the encoded body of a well-formed
property recovers it. -/
theorem attrFrom_intoBytes (p : Property) (t : List Nat) (hwf : wfProperty p = true) :
    p.kind.from t (p.intoBytes t) = .ok p := by
  cases p with
  | UserName s =>
    simp only [wfProperty] at hwf
    simp [Property.kind, Property.intoBytes, AttrKind.from, bufAsStr, hwf, Except.map]
  | Realm s =>
    simp only [wfProperty] at hwf
    simp [Property.kind, Property.intoBytes, AttrKind.from, bufAsStr, hwf, Except.map]
  | Nonce s =>
    simp only [wfProperty] at hwf
    simp [Property.kind, Property.intoBytes, AttrKind.from, bufAsStr, hwf, Except.map]
  | Software s =>
    simp only [wfProperty] at hwf
    simp [Property.kind, Property.intoBytes, AttrKind.from, bufAsStr, hwf, Except.map]
  | XorPeerAddress a =>
    simp [Property.kind, Property.intoBytes, AttrKind.from,
      Addr.tryFrom_asBytes a t true hwf, Except.map]
  | XorRelayedAddress a =>
    simp [Property.kind, Property.intoBytes, AttrKind.from,
      Addr.tryFrom_asBytes a t true hwf, Except.map]
  | XorMappedAddress a =>
    simp [Property.kind, Property.intoBytes, AttrKind.from,
      Addr.tryFrom_asBytes a t true hwf, Except.map]
  | MappedAddress a =>
    simp [Property.kind, Property.intoBytes, AttrKind.from,
      Addr.tryFrom_asBytes a t false hwf, Except.map]
  | ResponseOrigin a =>
    simp [Property.kind, Property.intoBytes, AttrKind.from,
      Addr.tryFrom_asBytes a t false hwf, Except.map]
  | Lifetime v =>
    simp only [wfProperty, decide_eq_true_eq] at hwf
    simp [Property.kind, Property.intoBytes, AttrKind.from,
      Nat.mod_eq_of_lt hwf, asU32_be32 v hwf]
  | ChannelNumber v =>
    simp only [wfProperty, decide_eq_true_eq] at hwf
    simp [Property.kind, Property.intoBytes, AttrKind.from,
      Nat.mod_eq_of_lt hwf, asU16_be16 v hwf]
  | ReqeestedTransport => simp [Property.kind, Property.intoBytes, AttrKind.from]
  | Data v => simp [Property.kind, Property.intoBytes, AttrKind.from]
  | MessageIntegrity v => simp [wfProperty] at hwf
  | Fingerprint v => simp [wfProperty] at hwf
  | ErrorCode e => simp [wfProperty] at hwf

theorem asU32_be32_append (n : Nat) (r : List Nat) :
    asU32 (be32 n ++ r) = n % 4294967296 := by
  simp only [asU32, be32, List.cons_append, byteAt_cons_zero, byteAt_cons_succ]
  omega

theorem attrCode_lt (k : AttrKind) : k.code < 65536 := by
  cases k <;> decide

theorem attrTryFrom_code (k : AttrKind) : AttrKind.tryFrom k.code = some k := by
  cases k <;> decide

theorem AttrKind.code_ne_integrity (k : AttrKind) (h : k ≠ .MessageIntegrity) :
    k.code ≠ 0x0008 := by
  cases k <;> simp_all [AttrKind.code]

theorem kindCode_lt (k : Kind) : k.code < 65536 := by
  cases k <;> decide

theorem kindTryFrom_code (k : Kind) (h : k ≠ .Unknown) : Kind.tryFrom k.code = some k := by
  cases k <;> first
    | exact absurd rfl h
    | decide

theorem wfProperty_kind_ne_integrity (p : Property) (h : wfProperty p = true) :
    p.kind ≠ AttrKind.MessageIntegrity := by
  cases p <;> simp_all [wfProperty, Property.kind]

theorem setLen2_cons4 (a b c d n : Nat) (r : List Nat) :
    setLen2 (a :: b :: c :: d :: r) n = a :: b :: (n / 256 % 256) :: (n % 256) :: r := rfl

theorem byteAt_of_drop (buffer l : List Nat) (offset : Nat)
    (h : buffer.drop offset = l) (i : Nat) : byteAt buffer (offset + i) = byteAt l i := by
  rw [← h, byteAt_drop]

theorem drop_add (l : List Nat) (n k : Nat) : l.drop (n + k) = (l.drop n).drop k := by
  rw [List.drop_drop, Nat.add_comm]

theorem find?_append_of_none {α : Type} (p : α → Bool) (l₁ l₂ : List α)
    (h : l₁.find? p = none) : (l₁ ++ l₂).find? p = l₂.find? p := by
  induction l₁ with
  | nil => simp
  | cons a l ih =>
    rw [List.find?_cons] at h
    cases hp : p a with
    | false =>
      rw [hp] at h
      simpa [List.find?_cons, hp] using ih h
    | true => rw [hp] at h; cases h

theorem length_encodeAttr (t : List Nat) (kp : AttrKind × Property) :
    (encodeAttr t kp).length = 4 + (kp.2.intoBytes t).length + padSize (kp.2.intoBytes t).length := by
  simp [encodeAttr, be16]
  omega

theorem encodeAttrs_cons (t : List Nat) (kp : AttrKind × Property)
    (rest : List (AttrKind × Property)) :
    encodeAttrs t (kp :: rest) = encodeAttr t kp ++ encodeAttrs t rest := by
  simp [encodeAttrs]

theorem encodeAttrs_nil (t : List Nat) : encodeAttrs t [] = [] := rfl

theorem four_le_length_encodeAttrs (t : List Nat) (attrs : List (AttrKind × Property))
    (h : attrs ≠ []) : 4 ≤ (encodeAttrs t attrs).length := by
  cases attrs with
  | nil => exact absurd rfl h
  | cons kp rest =>
    rw [encodeAttrs_cons, List.length_append, length_encodeAttr]
    omega

/-- The MESSAGE-INTEGRITY and FINGERPRINT attributes that
`encoder_integrity` appends after the message body. -/
def miFpBytes (digest : List Nat) (fp : Nat) : List Nat :=
  be16 0x0008 ++ be16 20 ++ digest ++ (be16 0x8028 ++ be16 4 ++ be32 fp)

theorem byteAt_be2_0 (n : Nat) (X : List Nat) : byteAt (be16 n ++ X) 0 = n / 256 % 256 := rfl

theorem byteAt_be2_1 (n : Nat) (X : List Nat) : byteAt (be16 n ++ X) 1 = n % 256 := rfl

theorem byteAt_be2_2 (n m : Nat) (X : List Nat) :
    byteAt (be16 n ++ (be16 m ++ X)) 2 = m / 256 % 256 := rfl

theorem byteAt_be2_3 (n m : Nat) (X : List Nat) :
    byteAt (be16 n ++ (be16 m ++ X)) 3 = m % 256 := rfl

theorem drop4_be2_be2 (n m : Nat) (X : List Nat) :
    (be16 n ++ (be16 m ++ X)).drop 4 = X := rfl

/-- One iteration of the decoder's attribute loop on a buffer whose tail at
`offset` starts with a complete encoded attribute: type `c`, declared size
`s`, value `v`, padding `pad`. -/
theorem decodeLoop_step (buffer token : List Nat) (offset : Nat) (fb : Bool) (b0 : Nat)
    (c s : Nat) (v pad rest : List Nat)
    (hoff : buffer.drop offset = be16 c ++ be16 s ++ v ++ pad ++ rest)
    (hc : c < 65536) (hs : s < 65536) (hv : v.length = s)
    (hpad : pad.length = padSize s) :
    decodeLoop buffer token offset fb b0 =
      (match AttrKind.tryFrom c with
       | none =>
         decodeLoop buffer token (offset + 4 + s + pad.length) (fb || (c == 8))
           (if fb then b0 else offset % 65536)
       | some k =>
         match k.from token v with
         | .error _ =>
           decodeLoop buffer token (offset + 4 + s + pad.length) (fb || (c == 8))
             (if fb then b0 else offset % 65536)
         | .ok p =>
           ((k, p) :: (decodeLoop buffer token (offset + 4 + s + pad.length) (fb || (c == 8))
               (if fb then b0 else offset % 65536)).1,
            (decodeLoop buffer token (offset + 4 + s + pad.length) (fb || (c == 8))
               (if fb then b0 else offset % 65536)).2)) := by
  have hoff' : buffer.drop offset = be16 c ++ (be16 s ++ (v ++ (pad ++ rest))) := by
    simpa [List.append_assoc] using hoff
  have hlen : buffer.length - offset = 4 + s + pad.length + rest.length := by
    have h := congrArg List.length hoff'
    rw [List.length_drop] at h
    simp only [List.length_append, be16, List.length_cons, List.length_nil] at h
    omega
  have e0 : byteAt buffer offset = c / 256 % 256 := by
    have h := byteAt_of_drop buffer _ offset hoff' 0
    rw [Nat.add_zero] at h
    rw [h, byteAt_be2_0]
  have e1 : byteAt buffer (offset + 1) = c % 256 := by
    rw [byteAt_of_drop buffer _ offset hoff' 1, byteAt_be2_1]
  have e2 : byteAt buffer (offset + 2) = s / 256 % 256 := by
    rw [byteAt_of_drop buffer _ offset hoff' 2, byteAt_be2_2]
  have e3 : byteAt buffer (offset + 3) = s % 256 := by
    rw [byteAt_of_drop buffer _ offset hoff' 3, byteAt_be2_3]
  have hkey : byteAt buffer offset * 256 + byteAt buffer (offset + 1) = c := by
    rw [e0, e1]; omega
  have hsize : byteAt buffer (offset + 2) * 256 + byteAt buffer (offset + 3) = s := by
    rw [e2, e3]; omega
  have hvalue : (buffer.drop (offset + 4)).take s = v := by
    rw [drop_add buffer offset 4, hoff', drop4_be2_be2]
    exact List.take_left' hv
  have hcond : ¬ (buffer.length - (offset + 4) < s) := by omega
  have hoffset2 : (if 0 < s then offset + 4 + s + padSize s else offset + 4)
      = offset + 4 + s + pad.length := by
    by_cases h : 0 < s
    · rw [if_pos h, hpad]
    · have hs0 : s = 0 := by omega
      rw [if_neg h]
      have : pad.length = 0 := by rw [hpad, hs0]; rfl
      omega
  rw [decodeLoop]
  rw [dif_neg (by omega)]
  simp only [hkey, hsize, hvalue, if_neg hcond, hoffset2]

/-- The decoder's attribute loop, run over an encoded attribute list
followed by the integrity and fingerprint attributes, recovers exactly the
attributes plus the two appended ones, and records `block` at the start of
the MESSAGE-INTEGRITY attribute. -/
theorem decodeLoop_main (buffer token digest : List Nat) (fp : Nat)
    (attrs : List (AttrKind × Property)) (offset b0 : Nat)
    (hoff : buffer.drop offset = encodeAttrs token attrs ++ miFpBytes digest fp)
    (hdig : digest.length = 20) (hfp : fp < 4294967296)
    (hwf : ∀ kp ∈ attrs, kp.1 = kp.2.kind ∧ wfProperty kp.2 = true)
    (hsz : ∀ kp ∈ attrs, (kp.2.intoBytes token).length < 65536)
    (hblk : offset + (encodeAttrs token attrs).length < 65536) :
    decodeLoop buffer token offset false b0 =
      (attrs ++ [(AttrKind.MessageIntegrity, Property.MessageIntegrity digest),
                 (AttrKind.Fingerprint, Property.Fingerprint fp)],
       offset + (encodeAttrs token attrs).length) := by
  induction attrs generalizing offset b0 with
  | nil =>
    rw [encodeAttrs_nil, List.nil_append] at hoff
    rw [encodeAttrs_nil]
    have hoffl : offset < 65536 := by
      rw [encodeAttrs_nil] at hblk; simpa using hblk
    have hmod : offset % 65536 = offset := Nat.mod_eq_of_lt hoffl
    have hoff1 : buffer.drop offset = be16 0x0008 ++ be16 20 ++ digest
        ++ ([] : List Nat) ++ (be16 0x8028 ++ be16 4 ++ be32 fp) := by
      rw [hoff]; simp [miFpBytes, List.append_assoc]
    have hoff2 : buffer.drop (offset + 24) = be16 0x8028 ++ be16 4 ++ be32 fp
        ++ ([] : List Nat) ++ ([] : List Nat) := by
      rw [drop_add buffer offset 24, hoff]
      simp only [miFpBytes, List.append_assoc, List.append_nil]
      rw [show (24 : Nat) = 2 + (2 + 20) by rfl, drop_add, drop_add]
      have d1 : (be16 8 ++ (be16 20 ++ (digest ++ (be16 32808 ++ (be16 4 ++ be32 fp))))).drop 2
          = be16 20 ++ (digest ++ (be16 32808 ++ (be16 4 ++ be32 fp))) := by
        simp [be16]
      rw [d1]
      have d2 : (be16 20 ++ (digest ++ (be16 32808 ++ (be16 4 ++ be32 fp)))).drop 2
          = digest ++ (be16 32808 ++ (be16 4 ++ be32 fp)) := by
        simp [be16]
      rw [d2, List.drop_left' hdig]
    have hlen : buffer.length - offset = 32 := by
      have h := congrArg List.length hoff
      rw [List.length_drop] at h
      simp only [miFpBytes, List.length_append, be16, be32, List.length_cons,
        List.length_nil, hdig] at h
      omega
    rw [decodeLoop_step buffer token offset false b0 0x0008 20 digest [] _ hoff1
      (by norm_num) (by norm_num) hdig (by rfl)]
    have ht1 : AttrKind.tryFrom 0x0008 = some AttrKind.MessageIntegrity := by decide
    have hf1 : AttrKind.MessageIntegrity.from token digest
        = .ok (Property.MessageIntegrity digest) := rfl
    simp only [ht1, hf1, List.length_nil, Nat.add_zero, Bool.false_or, beq_self_eq_true,
      Bool.false_eq_true, ite_false, hmod]
    rw [show offset + 4 + 20 = offset + 24 by omega]
    rw [decodeLoop_step buffer token (offset + 24) true offset 0x8028 4 (be32 fp) [] _
      hoff2 (by norm_num) (by norm_num) (by rfl) (by rfl)]
    have ht2 : AttrKind.tryFrom 0x8028 = some AttrKind.Fingerprint := by decide
    have hf2 : AttrKind.Fingerprint.from token (be32 fp)
        = .ok (Property.Fingerprint (asU32 (be32 fp))) := rfl
    simp only [ht2, hf2, List.length_nil, Nat.add_zero, ite_true, Bool.true_or]
    rw [show offset + 24 + 4 + 4 = offset + 32 by omega]
    rw [decodeLoop]
    rw [dif_pos (by omega)]
    rw [asU32_be32 fp hfp]
    simp
  | cons kp rest ih =>
    obtain ⟨k, p⟩ := kp
    have hk : k = p.kind := (hwf (k, p) (by simp)).1
    have hp : wfProperty p = true := (hwf (k, p) (by simp)).2
    have hvl : (p.intoBytes token).length < 65536 := hsz (k, p) (by simp)
    have hkmi : k ≠ AttrKind.MessageIntegrity := by
      rw [hk]; exact wfProperty_kind_ne_integrity p hp
    have hcode8 : (k.code == 8) = false := by
      simpa using AttrKind.code_ne_integrity k hkmi
    have hfrom : k.from token (p.intoBytes token) = .ok p := by
      rw [hk]; exact attrFrom_intoBytes p token hp
    rw [encodeAttrs_cons] at hoff
    have hoff1 : buffer.drop offset = be16 k.code ++ be16 (p.intoBytes token).length
        ++ p.intoBytes token ++ List.replicate (padSize (p.intoBytes token).length) 0
        ++ (encodeAttrs token rest ++ miFpBytes digest fp) := by
      rw [hoff]
      simp only [encodeAttr, Nat.mod_eq_of_lt hvl, List.append_assoc]
    rw [decodeLoop_step buffer token offset false b0 k.code (p.intoBytes token).length
      (p.intoBytes token) (List.replicate (padSize (p.intoBytes token).length) 0) _
      hoff1 (attrCode_lt k) hvl rfl (by simp)]
    simp only [attrTryFrom_code k, hfrom, hcode8, Bool.false_or, Bool.false_eq_true,
      ite_false, List.length_replicate]
    have heA : (encodeAttr token (k, p)).length
        = 4 + (p.intoBytes token).length + padSize (p.intoBytes token).length :=
      length_encodeAttr token (k, p)
    have hoff2 : buffer.drop (offset + 4 + (p.intoBytes token).length
        + padSize (p.intoBytes token).length)
        = encodeAttrs token rest ++ miFpBytes digest fp := by
      rw [show offset + 4 + (p.intoBytes token).length + padSize (p.intoBytes token).length
          = offset + (encodeAttr token (k, p)).length by rw [heA]; omega]
      rw [drop_add buffer offset _, hoff, List.append_assoc, List.drop_left]
    have hblk2 : offset + 4 + (p.intoBytes token).length + padSize (p.intoBytes token).length
        + (encodeAttrs token rest).length < 65536 := by
      rw [encodeAttrs_cons, List.length_append, heA] at hblk
      omega
    rw [ih _ _ hoff2 (fun kp hm => hwf kp (by simp [hm])) (fun kp hm => hsz kp (by simp [hm]))
      hblk2]
    rw [encodeAttrs_cons, List.length_append, heA]
    simp only [List.cons_append, Prod.mk.injEq, true_and]
    omega

/-! ### Shape of the encoder output -/

/-- The bytes `encoder_integrity` feeds to HMAC-SHA1: the encoded message
with its length field rewritten to include the MESSAGE-INTEGRITY attribute. -/
def hmacBody (m : Message) : List Nat :=
  be16 m.kind.code ++ (be16 ((encodeAttrs m.token m.attributes).length + 24)
    ++ (be32 0x2112A442 ++ (m.token ++ encodeAttrs m.token m.attributes)))

/-- The MESSAGE-INTEGRITY digest the encoder embeds. -/
def encDigest (m : Message) (a : Auth) : List Nat := hmacSha1 (authKey a) (hmacBody m)

/-- The buffer over which the encoder computes the fingerprint (everything
up to and including the FINGERPRINT attribute header). -/
def preFpBuf (m : Message) (a : Auth) : List Nat :=
  be16 m.kind.code ++ (be16 ((encodeAttrs m.token m.attributes).length + 32)
    ++ (be32 0x2112A442 ++ (m.token ++ (encodeAttrs m.token m.attributes
      ++ (be16 0x0008 ++ (be16 20 ++ (encDigest m a ++ (be16 0x8028 ++ be16 4))))))))

/-- The FINGERPRINT value the encoder embeds. -/
def encFp (m : Message) (a : Auth) : Nat := fingerprint (preFpBuf m a)

/-- The complete buffer `encode_message` produces with credentials. -/
def encodedBuf (m : Message) (a : Auth) : List Nat :=
  be16 m.kind.code ++ (be16 ((encodeAttrs m.token m.attributes).length + 32)
    ++ (be32 0x2112A442 ++ (m.token ++ (encodeAttrs m.token m.attributes
      ++ miFpBytes (encDigest m a) (encFp m a)))))

theorem setLen2_shape (c n x : Nat) (R : List Nat) :
    setLen2 (be16 c ++ (be16 x ++ R)) n = be16 c ++ (be16 n ++ R) := rfl

theorem encodedBuf_eq (m : Message) (a : Auth) :
    encodedBuf m a = preFpBuf m a ++ be32 (encFp m a) := by
  simp [encodedBuf, preFpBuf, miFpBytes, List.append_assoc]

theorem encode_integrity_shape (m : Message) (a : Auth) (hkind : m.kind ≠ Kind.Unknown)
    (htok : m.token.length = 12)
    (hbl : (encodeAttrs m.token m.attributes).length + 32 < 65536) :
    encode_message m (some a) = .ok (encodedBuf m a) := by
  simp only [encode_message]
  rw [if_neg hkind]
  simp only [List.append_assoc]
  have h1 : (be16 m.kind.code ++ (be16 0 ++ (be32 0x2112A442
      ++ (m.token ++ encodeAttrs m.token m.attributes)))).length
      = 20 + (encodeAttrs m.token m.attributes).length := by
    simp only [List.length_append, be16, be32, List.length_cons, List.length_nil, htok]
    omega
  rw [h1]
  have h2 : (20 + (encodeAttrs m.token m.attributes).length - 20) % 65536
      = (encodeAttrs m.token m.attributes).length := by omega
  rw [h2, setLen2_shape]
  simp only [encoder_integrity]
  have h3 : (be16 m.kind.code ++ (be16 (encodeAttrs m.token m.attributes).length
      ++ (be32 0x2112A442 ++ (m.token ++ encodeAttrs m.token m.attributes)))).length
      = 20 + (encodeAttrs m.token m.attributes).length := by
    simp only [List.length_append, be16, be32, List.length_cons, List.length_nil, htok]
    omega
  rw [h3]
  rw [if_neg (by omega)]
  have h4 : (20 + (encodeAttrs m.token m.attributes).length + 4) % 65536
      = (encodeAttrs m.token m.attributes).length + 24 := by omega
  rw [h4, setLen2_shape]
  have h5 : ((encodeAttrs m.token m.attributes).length + 24 + 8) % 65536
      = (encodeAttrs m.token m.attributes).length + 32 := by omega
  rw [h5]
  simp only [List.append_assoc]
  rw [setLen2_shape]
  rw [encodedBuf_eq]
  simp only [preFpBuf, encFp, encDigest, hmacBody, miFpBytes, List.append_assoc]

theorem drop4_be32 (n : Nat) (X : List Nat) : (be32 n ++ X).drop 4 = X := rfl

theorem take2_be16 (n : Nat) (X : List Nat) : (be16 n ++ X).take 2 = be16 n := rfl

theorem intoBytes_length_le (t : List Nat) (attrs : List (AttrKind × Property))
    (kp : AttrKind × Property) (h : kp ∈ attrs) :
    (kp.2.intoBytes t).length ≤ (encodeAttrs t attrs).length := by
  induction attrs with
  | nil => cases h
  | cons hd tl ih =>
    rw [encodeAttrs_cons, List.length_append, length_encodeAttr]
    rcases List.mem_cons.mp h with he | hm
    · subst he; omega
    · have := ih hm; omega

/-- The message `decode_message` recovers from the encoder's output. -/
def decodedOf (m : Message) (a : Auth) : Message :=
  { kind := m.kind,
    attributes := m.attributes
      ++ [(AttrKind.MessageIntegrity, Property.MessageIntegrity (encDigest m a)),
          (AttrKind.Fingerprint, Property.Fingerprint (encFp m a))],
    buffer := encodedBuf m a,
    token := m.token,
    block := 20 + (encodeAttrs m.token m.attributes).length }

theorem length_encodedBuf (m : Message) (a : Auth) (htok : m.token.length = 12) :
    (encodedBuf m a).length = 52 + (encodeAttrs m.token m.attributes).length := by
  have hdig : (encDigest m a).length = 20 := hmacSha1_length _ _
  simp only [encodedBuf, miFpBytes, List.length_append, be16, be32, List.length_cons,
    List.length_nil, htok, hdig]
  omega

theorem decode_encodedBuf (m : Message) (a : Auth) (hm : validMessage m) :
    decode_message (encodedBuf m a) = .ok (decodedOf m a) := by
  obtain ⟨hkind, htok, hne, hwf, hbl⟩ := hm
  have hdig : (encDigest m a).length = 20 := hmacSha1_length _ _
  have hfpv : encFp m a < 4294967296 := fingerprint_lt _
  have hlenE : (encodedBuf m a).length = 52 + (encodeAttrs m.token m.attributes).length :=
    length_encodedBuf m a htok
  simp only [decode_message]
  rw [if_neg (by rw [hlenE]; omega)]
  have hk0 : asU16 (encodedBuf m a) = m.kind.code := by
    rw [encodedBuf, asU16_be16_append]
    exact Nat.mod_eq_of_lt (kindCode_lt _)
  rw [hk0, kindTryFrom_code m.kind hkind]
  simp only [Option.getD_some]
  rw [if_neg hkind]
  have hszr : asU16 ((encodedBuf m a).drop 2) = (encodeAttrs m.token m.attributes).length + 32 := by
    rw [encodedBuf, be16_drop2, asU16_be16_append]
    exact Nat.mod_eq_of_lt (by omega)
  have hck : asU32 ((encodedBuf m a).drop 4) = 0x2112A442 := by
    rw [encodedBuf, drop4_be2_be2, asU32_be32_append]
  rw [hszr, hck]
  rw [if_neg (by norm_num)]
  rw [if_neg (by rw [hlenE]; omega)]
  have htk : ((encodedBuf m a).drop 8).take 12 = m.token := by
    rw [encodedBuf, show (8 : Nat) = 4 + 4 by rfl, drop_add, drop4_be2_be2, drop4_be32]
    exact List.take_left' htok
  rw [htk]
  have hdrop20 : (encodedBuf m a).drop 20
      = encodeAttrs m.token m.attributes ++ miFpBytes (encDigest m a) (encFp m a) := by
    rw [encodedBuf, show (20 : Nat) = 4 + 4 + 12 by rfl, drop_add, drop_add,
      drop4_be2_be2, drop4_be32]
    exact List.drop_left' htok
  have hsz' : ∀ kp ∈ m.attributes, (kp.2.intoBytes m.token).length < 65536 := by
    intro kp h
    exact lt_of_le_of_lt (intoBytes_length_le m.token m.attributes kp h) (by omega)
  rw [decodeLoop_main (encodedBuf m a) m.token (encDigest m a) (encFp m a) m.attributes 20 0
    hdrop20 hdig hfpv hwf hsz' (by omega)]
  rfl

theorem assert_integrity_encoded (m : Message) (a : Auth) (hm : validMessage m) :
    assert_integrity (decodedOf m a) a = .ok true := by
  obtain ⟨hkind, htok, hne, hwf, hbl⟩ := hm
  have hbl4 : 4 ≤ (encodeAttrs m.token m.attributes).length :=
    four_le_length_encodeAttrs _ _ hne
  have hemp : (encodedBuf m a).isEmpty = false := by rw [encodedBuf]; rfl
  have hfind : (decodedOf m a).get AttrKind.MessageIntegrity
      = some (Property.MessageIntegrity (encDigest m a)) := by
    have hnone : m.attributes.find? (fun kp => kp.1 == AttrKind.MessageIntegrity) = none := by
      rw [List.find?_eq_none]
      intro kp hkp
      have hw := hwf kp hkp
      simp only [beq_iff_eq]
      rw [hw.1]
      exact wfProperty_kind_ne_integrity kp.2 hw.2
    simp only [Message.get, decodedOf]
    rw [find?_append_of_none _ _ _ hnone]
    rfl
  simp only [assert_integrity, decodedOf] at hfind ⊢
  rw [hemp]
  rw [if_neg (by simp)]
  rw [if_neg (by omega)]
  simp only [hfind]
  have hmod : (20 + (encodeAttrs m.token m.attributes).length + 4) % 65536
      = (encodeAttrs m.token m.attributes).length + 24 := by omega
  rw [hmod]
  have htake2 : (encodedBuf m a).take 2 = be16 m.kind.code := by
    rw [encodedBuf]; exact take2_be16 _ _
  have hdt : ((encodedBuf m a).drop 4).take (20 + (encodeAttrs m.token m.attributes).length - 4)
      = be32 0x2112A442 ++ (m.token ++ encodeAttrs m.token m.attributes) := by
    rw [encodedBuf, drop4_be2_be2]
    have hre : be32 0x2112A442 ++ (m.token ++ (encodeAttrs m.token m.attributes
        ++ miFpBytes (encDigest m a) (encFp m a)))
        = (be32 0x2112A442 ++ (m.token ++ encodeAttrs m.token m.attributes))
          ++ miFpBytes (encDigest m a) (encFp m a) := by
      simp [List.append_assoc]
    rw [hre]
    apply List.take_left'
    simp only [List.length_append, be32, List.length_cons, List.length_nil, htok]
    omega
  rw [htake2, hdt]
  have hbody : be16 m.kind.code ++ be16 ((encodeAttrs m.token m.attributes).length + 24)
      ++ (be32 0x2112A442 ++ (m.token ++ encodeAttrs m.token m.attributes)) = hmacBody m := by
    simp [hmacBody, List.append_assoc]
  rw [hbody]
  have : (hmacSha1 (authKey a) (hmacBody m) == encDigest m a) = true := by
    simp [encDigest]
  simp only [this]

theorem Kind.tryFrom_ne_unknown (n : Nat) (k : Kind) (h : Kind.tryFrom n = some k) :
    k ≠ Kind.Unknown := by
  simp only [Kind.tryFrom, Option.map_eq_some'] at h
  obtain ⟨kc, hfind, hk⟩ := h
  have hmem : kc ∈ Kind.codeTable := List.mem_of_find?_eq_some hfind
  have : ∀ x ∈ Kind.codeTable, x.2 ≠ Kind.Unknown := by decide
  exact hk ▸ this kc hmem

/-! ### Concrete fixtures used by witnesses and counterexamples -/

/-- Sample username bytes (`"u"`). -/
def u0 : List Nat := [117]

/-- Sample long-term key bytes. -/
def k0 : List Nat := [112]

/-- Sample realm bytes (`"ex"`). -/
def r0 : List Nat := [101, 120]

/-- Sample credential triple. -/
def a0 : Auth := (u0, k0, r0)

/-- Sample 12-byte transaction token. -/
def tok0 : List Nat := List.replicate 12 0

/-- A small valid message for the encoder. -/
def m0 : Message :=
  { kind := .BindingRequest, attributes := [(.Lifetime, .Lifetime 600)],
    buffer := [], token := tok0, block := 0 }

/-- Auth lookup that knows every user with key `k0`. -/
def gp0 : List Nat → Option (List Nat) := fun _ => some k0

/-- `insert_channel` that always accepts. -/
def icTrue : Nat → Nat → Bool := fun _ _ => true

/-- `insert_channel` that always rejects. -/
def icFalse : Nat → Nat → Bool := fun _ _ => false

/-- A 44-byte raw buffer standing for a decoded request with `block = 24`. -/
def buf44 : List Nat := List.replicate 44 7

/-- The HMAC input `assert_integrity` computes for `buf44` with
`block = 24`. -/
def mbody24 : List Nat :=
  buf44.take 2 ++ be16 ((24 + 4) % 65536) ++ (buf44.drop 4).take (24 - 4)

/-- A digest that makes integrity verification succeed on `buf44`. -/
def m5digest : List Nat := hmacSha1 (authKey a0) mbody24

/-- A decoded Refresh request with valid credentials, LIFETIME 7200 and no
NONCE attribute. -/
def m5 : Message :=
  { kind := .RefreshRequest,
    attributes := [(.UserName, .UserName u0), (.Lifetime, .Lifetime 7200),
                   (.MessageIntegrity, .MessageIntegrity m5digest)],
    buffer := buf44, token := tok0, block := 24 }

/-- Peer address `9.9.9.9:7777`. -/
def peer99 : Addr := ⟨.v4, 7777, [9, 9, 9, 9]⟩

/-- A decoded ChannelBind request binding channel `0x4000` to `peer99`,
with valid credentials. -/
def cbOk : CBMessage :=
  { attrs := [(.UserName, u0), (.ChannelNumber, [0x40, 0]),
              (.XorPeerAddress, peer99.asBytes tok0 true),
              (.MessageIntegrity, m5digest)],
    token := tok0, buffer := buf44, block := 24 }

/-- A ChannelBind request with no attributes at all. -/
def cbEmpty : CBMessage := { attrs := [], token := [], buffer := [], block := 0 }

/-- A decoded message with a (non-matching) MESSAGE-INTEGRITY attribute. -/
def p2 : Message :=
  { kind := .BindingRequest,
    attributes := [(.MessageIntegrity, .MessageIntegrity [1, 2, 3])],
    buffer := buf44, token := tok0, block := 24 }

/-- 20 bytes: recognized kind (Binding request), zero cookie. -/
def cex4bad : List Nat := 0 :: 1 :: 0 :: 0 :: List.replicate 16 0

/-- 20 bytes: recognized kind, good cookie, declared length 0xFFFF. -/
def cex4len : List Nat := 0 :: 1 :: 255 :: 255 :: (cookieBytes ++ List.replicate 12 0)

/-- 20 bytes of 0xFF: unrecognized message kind and bad cookie. -/
def cex4unknown : List Nat := List.replicate 20 255

/-! ### Claim theorems -/

/-- C9: for every input buffer of length at least 20 whose first two bytes
do not encode a recognized message kind, `decode_message` returns success
with kind `Unknown`, an empty attribute list, an empty token and an empty
buffer — the magic cookie and the declared length field are never
examined (the result is independent of them). -/
theorem decode_unknown_kind (b : List Nat) (h20 : 20 ≤ b.length)
    (hk : Kind.tryFrom (asU16 b) = none) :
    decode_message b = .ok { kind := Kind.Unknown, attributes := [],
                             buffer := [], token := [], block := 0 } := by
  simp only [decode_message]
  rw [if_neg (by omega)]
  rw [hk]
  simp only [Option.getD_none]
  simp only [if_true]
  rfl

/-- Witness for C9 at a concrete 20-byte buffer of 0xFE bytes. -/
theorem decode_unknown_kind_witness :
    20 ≤ (List.replicate 20 254 : List Nat).length ∧
    Kind.tryFrom (asU16 (List.replicate 20 254)) = none ∧
    decode_message (List.replicate 20 254)
      = .ok { kind := Kind.Unknown, attributes := [], buffer := [],
              token := [], block := 0 } :=
  ⟨by decide, by decide, decode_unknown_kind _ (by decide) (by decide)⟩

/-- C4 (counterexample): a 20-byte buffer whose cookie bytes are not
`0x2112A442` on which `decode_message` nevertheless succeeds, because its
message kind is unrecognized — refuting "for every buffer of at least 20
bytes it fails when bytes 4..8 are not the magic cookie". -/
theorem decode_bad_cookie_succeeds :
    decode_message cex4unknown
      = .ok { kind := Kind.Unknown, attributes := [], buffer := [],
              token := [], block := 0 } ∧
    20 ≤ cex4unknown.length ∧
    asU32 (cex4unknown.drop 4) ≠ 0x2112A442 := by
  refine ⟨?_, by decide, by decide⟩
  rfl

/-- C4 (amended): `decode_message` fails on every buffer shorter than 20
bytes; on every buffer of at least 20 bytes whose message kind is
recognized it fails when bytes 4..8 are not the magic cookie `0x2112A442`,
and it fails when the declared length field plus 20 exceeds the buffer
length. -/
theorem decode_header_checks :
    (∀ b : List Nat, b.length < 20 → decode_message b = .error "message len < 20") ∧
    (∀ (b : List Nat) (k : Kind), 20 ≤ b.length → Kind.tryFrom (asU16 b) = some k →
      asU32 (b.drop 4) ≠ 0x2112A442 → decode_message b = .error "missing cookie") ∧
    (∀ (b : List Nat) (k : Kind), 20 ≤ b.length → Kind.tryFrom (asU16 b) = some k →
      b.length < asU16 (b.drop 2) + 20 → ∃ e, decode_message b = .error e) := by
  refine ⟨?_, ?_, ?_⟩
  · intro b h
    simp only [decode_message]
    rw [if_pos h]
  · intro b k h hk hck
    simp only [decode_message]
    rw [if_neg (by omega)]
    rw [hk]
    simp only [Option.getD_some]
    rw [if_neg (Kind.tryFrom_ne_unknown _ _ hk)]
    rw [if_pos hck]
  · intro b k h hk hlen
    simp only [decode_message]
    rw [if_neg (by omega)]
    rw [hk]
    simp only [Option.getD_some]
    rw [if_neg (Kind.tryFrom_ne_unknown _ _ hk)]
    by_cases hc : asU32 (b.drop 4) ≠ 0x2112A442
    · exact ⟨"missing cookie", by rw [if_pos hc]⟩
    · refine ⟨"missing len", ?_⟩
      rw [if_neg hc]
      rw [if_pos hlen]

/-- Witness for C4 at concrete short, bad-cookie, and bad-length buffers. -/
theorem decode_header_checks_witness :
    decode_message (List.replicate 19 0) = .error "message len < 20" ∧
    decode_message cex4bad = .error "missing cookie" ∧
    (∃ e, decode_message cex4len = .error e) :=
  ⟨decode_header_checks.1 _ (by decide),
   decode_header_checks.2.1 cex4bad Kind.BindingRequest (by decide) (by decide) (by decide),
   decode_header_checks.2.2 cex4len Kind.BindingRequest (by decide) (by decide) (by decide)⟩

/-- C8: the ERROR-CODE decoder `Error::try_from` can never succeed: the
inverted bound `ensure!(packet.len() < 6)` rejects every buffer of length
at least 6 (the intended valid ones), and every shorter buffer either
fails an `ensure!` or panics on an out-of-bounds slice.  In particular the
well-formed 8-byte value `00 01 04 00 "Bad "` is rejected. -/
theorem errorTryFrom_never_succeeds :
    (∀ p : List Nat, (errorTryFrom p).isOk = false) ∧
    errorTryFrom [0, 1, 4, 0, 66, 97, 100, 32] = .error "buffer len < 6" ∧
    errorTryFrom [0, 1, 4, 0] = .error "panic: slice out of range" := by
  refine ⟨?_, by rfl, by rfl⟩
  intro p
  simp only [errorTryFrom]
  by_cases h1 : ¬ p.length < 6
  · rw [if_pos h1]; rfl
  · rw [if_neg h1]
    push_neg at h1
    by_cases h2 : p.length < 2
    · rw [if_pos h2]; rfl
    · rw [if_neg h2]
      by_cases h3 : asU16 p = 0
      · rw [if_pos h3]; rfl
      · rw [if_neg h3]
        by_cases h4 : p.length < 4
        · rw [if_pos h4]; rfl
        · rw [if_neg h4]
          rw [if_pos (by omega : p.length < 6)]
          rfl

/-- C2: `assert_integrity` on a message whose MESSAGE-INTEGRITY attribute
starts at offset `block > 20` returns true exactly when the HMAC-SHA1 of
the long-term key over `buffer[0..2] ∥ be16(block - 20 + 24) ∥
buffer[4..block]` equals the stored digest. -/
theorem assert_integrity_spec (p : Message) (a : Auth) (x : List Nat)
    (hne : p.buffer ≠ []) (hblock : 20 < p.block)
    (hmi : p.get AttrKind.MessageIntegrity = some (Property.MessageIntegrity x)) :
    (assert_integrity p a = .ok true) ↔
      hmacSha1 (authKey a) (p.buffer.take 2 ++ be16 ((p.block - 20 + 24) % 65536)
        ++ (p.buffer.drop 4).take (p.block - 4)) = x := by
  have hstep : assert_integrity p a
      = .ok (hmacSha1 (authKey a) (p.buffer.take 2 ++ be16 ((p.block + 4) % 65536)
          ++ (p.buffer.drop 4).take (p.block - 4)) == x) := by
    simp only [assert_integrity]
    rw [if_neg (by simpa [List.isEmpty_iff] using hne)]
    rw [if_neg (by omega)]
    simp only [hmi]
  rw [show p.block - 20 + 24 = p.block + 4 by omega]
  rw [hstep, Except.ok.injEq, beq_iff_eq]

/-- Witness for C2 at a concrete 44-byte message with `block = 24`. -/
theorem assert_integrity_spec_witness :
    p2.buffer ≠ [] ∧ 20 < p2.block ∧
    p2.get AttrKind.MessageIntegrity = some (Property.MessageIntegrity [1, 2, 3]) ∧
    ((assert_integrity p2 a0 = .ok true) ↔
      hmacSha1 (authKey a0) (p2.buffer.take 2 ++ be16 ((p2.block - 20 + 24) % 65536)
        ++ (p2.buffer.drop 4).take (p2.block - 4)) = [1, 2, 3]) :=
  ⟨by decide, by decide, by decide,
   assert_integrity_spec p2 a0 [1, 2, 3] (by decide) (by decide) (by decide)⟩

/-- C1 (counterexample): for the concrete valid message `m0` and
credentials `a0`, decoding the encoded buffer does *not* return a message
equal to `m0` — the decoder additionally parses the MESSAGE-INTEGRITY and
FINGERPRINT attributes the encoder appended, so the attribute lists
differ. -/
theorem encode_decode_not_equal :
    encode_message m0 (some a0) = Except.ok (encodedBuf m0 a0) ∧
    decode_message (encodedBuf m0 a0) ≠ Except.ok m0 := by
  constructor
  · exact encode_integrity_shape m0 a0 (by decide) (by decide) (by decide)
  · rw [decode_encodedBuf m0 a0 (by decide)]
    intro h
    have h3 : (decodedOf m0 a0).attributes.length = m0.attributes.length := by
      rw [Except.ok.inj h]
    simp [decodedOf, m0] at h3

/-- C1 (amended): for every valid message `m` (recognized kind, 12-byte
token, nonempty well-formed attributes, size within the length field) and
every credential triple, decoding the encoded buffer succeeds and yields a
message with the same kind and token whose attribute list is `m`'s
extended by exactly the appended MESSAGE-INTEGRITY and FINGERPRINT
attributes, and verifying the decoded message with the same credentials
returns true. -/
theorem encode_decode_roundtrip (m : Message) (a : Auth) (hm : validMessage m) :
    encode_message m (some a) = Except.ok (encodedBuf m a) ∧
    decode_message (encodedBuf m a) = Except.ok (decodedOf m a) ∧
    (decodedOf m a).kind = m.kind ∧
    (decodedOf m a).token = m.token ∧
    (decodedOf m a).attributes = m.attributes
      ++ [(AttrKind.MessageIntegrity, Property.MessageIntegrity (encDigest m a)),
          (AttrKind.Fingerprint, Property.Fingerprint (encFp m a))] ∧
    assert_integrity (decodedOf m a) a = Except.ok true :=
  ⟨encode_integrity_shape m a hm.1 hm.2.1 hm.2.2.2.2,
   decode_encodedBuf m a hm, rfl, rfl, rfl, assert_integrity_encoded m a hm⟩

/-- Witness for C1 at the concrete message `m0` and credentials `a0`. -/
theorem encode_decode_roundtrip_witness :
    validMessage m0 ∧
    decode_message (encodedBuf m0 a0) = Except.ok (decodedOf m0 a0) ∧
    assert_integrity (decodedOf m0 a0) a0 = Except.ok true :=
  ⟨by decide, (encode_decode_roundtrip m0 a0 (by decide)).2.1,
   (encode_decode_roundtrip m0 a0 (by decide)).2.2.2.2.2⟩

/-- Exhaustive enumeration of Refresh handler outcomes: a propagated
error (dropped datagram), a 401 rejection, or a success carrying some
lifetime. -/
theorem refresh_process_shape (m : Message) (realm : List Nat)
    (ga : List Nat → Option (List Nat)) :
    (∃ e, refresh_process m realm ga = .error e) ∨
    refresh_process m realm ga = .ok (.reject .Unauthorized) ∨
    (∃ l, refresh_process m realm ga = .ok (.resolve l)) := by
  cases hu : m.get AttrKind.UserName with
  | none => exact Or.inr (Or.inl (by simp [refresh_process, hu]))
  | some p =>
    cases p
    case UserName u =>
      cases hg : ga u with
      | none => exact Or.inr (Or.inl (by simp [refresh_process, hu, hg]))
      | some key =>
        cases hv : m.verify (u, key, realm) with
        | error e => exact Or.inl ⟨e, by simp [refresh_process, hu, hg, hv]⟩
        | ok b =>
          cases b with
          | false => exact Or.inr (Or.inl (by simp [refresh_process, hu, hg, hv]))
          | true =>
            exact Or.inr (Or.inr ⟨(match m.get AttrKind.Lifetime with
              | some (Property.Lifetime l) => l
              | _ => 600), by simp [refresh_process, hu, hg, hv]⟩)
    all_goals exact Or.inr (Or.inl (by simp [refresh_process, hu]))

/-- Exhaustive enumeration of ChannelBind handler outcomes: a propagated
error, an early 401/400 rejection with no state calls, a 437 rejection
after a failed channel insertion, or a success — the latter two recording
exactly the one channel-insertion call. -/
theorem cb_process_shape (m : CBMessage) (realm : List Nat)
    (gp : List Nat → Option (List Nat)) (ic : Nat → Nat → Bool) :
    (∃ e, cb_process m realm gp ic = .error e) ∨
    (∃ e, (e = ErrKind.Unauthorized ∨ e = ErrKind.BadRequest) ∧
      cb_process m realm gp ic = .ok (cbReject e, [])) ∨
    (∃ p c, cb_process m realm gp ic
      = .ok (cbReject ErrKind.AllocationMismatch, [.insertChannel p c])) ∨
    (∃ p c, cb_process m realm gp ic = .ok (.resolve, [.insertChannel p c])) := by
  cases hu : m.getUserName with
  | none => exact Or.inr (Or.inl ⟨_, Or.inl rfl, by simp [cb_process, hu]⟩)
  | some r =>
    cases r with
    | error e => exact Or.inl ⟨e, by simp [cb_process, hu]⟩
    | ok u =>
      cases hc : m.getChannelNumber with
      | none => exact Or.inr (Or.inl ⟨_, Or.inr rfl, by simp [cb_process, hu, hc]⟩)
      | some rc =>
        cases rc with
        | error e => exact Or.inl ⟨e, by simp [cb_process, hu, hc]⟩
        | ok c =>
          cases hx : m.getXorPeerAddress with
          | none => exact Or.inr (Or.inl ⟨_, Or.inr rfl, by simp [cb_process, hu, hc, hx]⟩)
          | some ra =>
            cases ra with
            | error e => exact Or.inl ⟨e, by simp [cb_process, hu, hc, hx]⟩
            | ok pa =>
              by_cases hr : 0x4000 ≤ c ∧ c ≤ 0x4FFF
              · cases hg : gp u with
                | none =>
                  exact Or.inr (Or.inl ⟨_, Or.inl rfl,
                    by simp [cb_process, hu, hc, hx, hr, hg]⟩)
                | some key =>
                  cases hi : m.integrity (u, key, realm) with
                  | error e =>
                    exact Or.inr (Or.inl ⟨_, Or.inl rfl,
                      by simp [cb_process, hu, hc, hx, hr, hg, hi]⟩)
                  | ok uu =>
                    cases hic : ic pa.port c with
                    | false =>
                      exact Or.inr (Or.inr (Or.inl ⟨pa.port, c,
                        by simp [cb_process, hu, hc, hx, hr, hg, hi, hic]⟩))
                    | true =>
                      exact Or.inr (Or.inr (Or.inr ⟨pa.port, c,
                        by simp [cb_process, hu, hc, hx, hr, hg, hi, hic]⟩))
              · exact Or.inr (Or.inl ⟨_, Or.inr rfl, by simp [cb_process, hu, hc, hx, hr]⟩)

/-- Detects a 438 Stale Nonce rejection of the Refresh handler. -/
def refreshIsStaleReject : Except String RefreshOutcome → Bool
  | .ok (.reject .StaleNonce) => true
  | _ => false

/-- Detects a 438 Stale Nonce rejection of the ChannelBind handler. -/
def cbIsStaleReject : Except String (CBOutcome × List StateCall) → Bool
  | .ok (.reject _ .StaleNonce, _) => true
  | _ => false

/-- C3 (amended): neither the Refresh handler nor the ChannelBind handler
performs any nonce validation: no input whatsoever — in particular no
request with a missing or mismatched NONCE — is answered with
438 Stale Nonce; credential problems are answered with 401 Unauthorized
instead. -/
theorem no_stale_nonce_check :
    (∀ (m : Message) (realm : List Nat) (ga : List Nat → Option (List Nat)),
      refreshIsStaleReject (refresh_process m realm ga) = false) ∧
    (∀ (m : CBMessage) (realm : List Nat) (gp : List Nat → Option (List Nat))
      (ic : Nat → Nat → Bool),
      cbIsStaleReject (cb_process m realm gp ic) = false) := by
  constructor
  · intro m realm ga
    rcases refresh_process_shape m realm ga with ⟨e, he⟩ | he | ⟨l, he⟩ <;> rw [he] <;> rfl
  · intro m realm gp ic
    rcases cb_process_shape m realm gp ic with
        ⟨e, he⟩ | ⟨e, hee, he⟩ | ⟨p, c, he⟩ | ⟨p, c, he⟩ <;> rw [he]
    · rfl
    · rcases hee with h | h <;> subst h <;> rfl
    · rfl
    · rfl

/-- C3 (counterexample): the concrete Refresh request `m5` carries no
NONCE attribute at all, yet the handler answers with a success response
(it never issues 438 Stale Nonce). -/
theorem refresh_succeeds_without_nonce :
    m5.get AttrKind.Nonce = none ∧
    refresh_process m5 r0 gp0 = .ok (.resolve 7200) := by
  exact ⟨by decide, by decide⟩

/-- C5 (counterexample): the Refresh request `m5` asks for LIFETIME 7200;
the success response carries 7200 verbatim, not the clamped
`min(7200, 3600) = 3600`. -/
theorem refresh_lifetime_unclamped :
    refresh_process m5 r0 gp0 = .ok (.resolve 7200) ∧
    (7200 : Nat) ≠ min 7200 3600 := by
  exact ⟨by decide, by decide⟩

/-- C5 (amended): for every authenticated Refresh request the success
response carries exactly the requested LIFETIME value — 600 when the
request has no LIFETIME attribute — with no clamping applied by the
handler (`min` with the maximum lifetime is left to the state layer and
does not affect the response). -/
theorem refresh_response_lifetime (m : Message) (realm : List Nat)
    (ga : List Nat → Option (List Nat)) (u key : List Nat)
    (hu : m.get AttrKind.UserName = some (.UserName u))
    (hk : ga u = some key)
    (hv : m.verify (u, key, realm) = .ok true) :
    refresh_process m realm ga = .ok (.resolve
      (match m.get AttrKind.Lifetime with
       | some (Property.Lifetime l) => l
       | _ => 600)) := by
  simp only [refresh_process, hu, hk, hv]

/-- Witness for C5 at the concrete Refresh request `m5`. -/
theorem refresh_response_lifetime_witness :
    m5.get AttrKind.UserName = some (.UserName u0) ∧
    refresh_process m5 r0 gp0 = .ok (.resolve
      (match m5.get AttrKind.Lifetime with
       | some (Property.Lifetime l) => l
       | _ => 600)) :=
  ⟨by decide, refresh_response_lifetime m5 r0 gp0 u0 k0 (by decide) rfl (by decide)⟩

/-- The state mutations recorded by a ChannelBind run (empty on a dropped
datagram). -/
def callsOf : Except String (CBOutcome × List StateCall) → List StateCall
  | .ok (_, cs) => cs
  | .error _ => []

/-- Whether a list of state calls contains a permission installation. -/
def hasPermCall (cs : List StateCall) : Bool :=
  cs.any fun c => match c with | .insertPermission _ => true | _ => false

/-- C6: the ChannelBind handler never installs a permission: no run of
`cb_process` — successful or not — ever issues an `insertPermission` state
call (the handler forwards only the peer's *port* to `insert_channel`, so
the peer IP is discarded); concretely, the successful bind of channel
0x4000 to 9.9.9.9:7777 performs exactly one state mutation, the channel
insertion. -/
theorem cb_no_permission_installed :
    (∀ (m : CBMessage) (realm : List Nat) (gp : List Nat → Option (List Nat))
      (ic : Nat → Nat → Bool),
      hasPermCall (callsOf (cb_process m realm gp ic)) = false) ∧
    cb_process cbOk r0 gp0 icTrue = .ok (.resolve, [.insertChannel 7777 0x4000]) := by
  constructor
  · intro m realm gp ic
    rcases cb_process_shape m realm gp ic with
        ⟨e, he⟩ | ⟨e, hee, he⟩ | ⟨p, c, he⟩ | ⟨p, c, he⟩ <;> rw [he] <;> rfl
  · decide

/-- C7 (counterexample): a ChannelBind request with no attributes lacks a
CHANNEL-NUMBER, yet the handler answers 401 Unauthorized (the USERNAME
check comes first), not 400 Bad Request as the claim requires. -/
theorem cb_missing_channel_unauthorized :
    cb_process cbEmpty r0 gp0 icTrue
      = .ok (.reject Kind.CreatePermissionError .Unauthorized, []) ∧
    cbEmpty.getChannelNumber = none ∧
    ErrKind.Unauthorized ≠ ErrKind.BadRequest := by
  exact ⟨rfl, rfl, by decide⟩

/-- C7 (amended): for every ChannelBind request carrying a decodable
USERNAME, the handler answers 400 when the CHANNEL-NUMBER attribute is
missing, when the XOR-PEER-ADDRESS attribute is missing, or when the
channel number lies outside `[0x4000, 0x4FFF]`; and it answers 437 when
`insert_channel` rejects the binding. -/
theorem cb_error_codes (m : CBMessage) (realm : List Nat)
    (gp : List Nat → Option (List Nat)) (ic : Nat → Nat → Bool) (u : List Nat)
    (hu : m.getUserName = some (.ok u)) :
    (m.getChannelNumber = none →
      cb_process m realm gp ic = .ok (.reject Kind.CreatePermissionError .BadRequest, [])) ∧
    (∀ c, m.getChannelNumber = some (.ok c) → m.getXorPeerAddress = none →
      cb_process m realm gp ic = .ok (.reject Kind.CreatePermissionError .BadRequest, [])) ∧
    (∀ c pa, m.getChannelNumber = some (.ok c) → m.getXorPeerAddress = some (.ok pa) →
      ¬ (0x4000 ≤ c ∧ c ≤ 0x4FFF) →
      cb_process m realm gp ic = .ok (.reject Kind.CreatePermissionError .BadRequest, [])) ∧
    (∀ c pa key, m.getChannelNumber = some (.ok c) → m.getXorPeerAddress = some (.ok pa) →
      (0x4000 ≤ c ∧ c ≤ 0x4FFF) → gp u = some key →
      m.integrity (u, key, realm) = .ok () → ic pa.port c = false →
      cb_process m realm gp ic
        = .ok (.reject Kind.CreatePermissionError .AllocationMismatch,
               [.insertChannel pa.port c])) := by
  refine ⟨?_, ?_, ?_, ?_⟩
  · intro hc
    simp only [cb_process, hu, hc, cbReject]
  · intro c hc hx
    simp only [cb_process, hu, hc, hx, cbReject]
  · intro c pa hc hx hrange
    simp only [cb_process, hu, hc, hx, cbReject]
    rw [if_pos hrange]
  · intro c pa key hc hx hrange hgp hint hic
    simp only [cb_process, hu, hc, hx, hgp, hint, hic, cbReject]
    rw [if_neg (by simpa using hrange)]
    rw [if_pos (by simp)]

/-- Witness for C7: the conflict branch at a concrete request — `cbOk`
with an `insert_channel` that rejects — yields 437 with the channel
insertion attempt recorded. -/
theorem cb_error_codes_witness :
    cb_process cbOk r0 gp0 icFalse
      = .ok (.reject Kind.CreatePermissionError .AllocationMismatch,
             [.insertChannel 7777 0x4000]) :=
  (cb_error_codes cbOk r0 gp0 icFalse u0 (by decide)).2.2.2 0x4000 peer99 k0
    (by decide) (by decide) (by decide) rfl (by decide) rfl

/-- Checks that a rejection outcome carries the `CreatePermissionError`
message kind. -/
def rejectKindOk : Except String (CBOutcome × List StateCall) → Bool
  | .ok (.reject k _, _) => k == Kind.CreatePermissionError
  | _ => true

/-- C10: every rejection the ChannelBind handler emits uses message kind
`CreatePermissionError` (not `ChannelBindError`) — the `reject` helper
hard-codes it — and concretely an attribute-less request is rejected with
that kind. -/
theorem cb_reject_kind :
    (∀ (m : CBMessage) (realm : List Nat) (gp : List Nat → Option (List Nat))
      (ic : Nat → Nat → Bool),
      rejectKindOk (cb_process m realm gp ic) = true) ∧
    cb_process cbEmpty r0 gp0 icTrue
      = .ok (.reject Kind.CreatePermissionError .Unauthorized, []) ∧
    Kind.CreatePermissionError ≠ Kind.ChannelBindError := by
  refine ⟨?_, rfl, by decide⟩
  intro m realm gp ic
  rcases cb_process_shape m realm gp ic with
      ⟨e, he⟩ | ⟨e, hee, he⟩ | ⟨p, c, he⟩ | ⟨p, c, he⟩ <;> rw [he] <;> rfl

end Mysticeti
